import Mathlib

/-!
Shallow embedding of the `journal` repository's filesystem-to-store ingestion
pipeline and change-notification relay, together with theorems checking the
natural-language specification against the code.

Source files embedded:
- `src/watcher.rs` : event classifier (`event_to_path`), document parser
  (`path_to_doc`), `Watcher` construction.
- `src/model.rs`   : `DocKind`, `DocGenre`, `Front`, `Doc` and the serde
  defaults `default_kind` / `default_genre`.
- `src/main.rs`    : the persistence sync worker loop, the bounded ingestion
  channel (`mpsc::channel(1024)`), and the notification relay transform
  (`make_stream`).

Strings are modelled as `List Char` internally (via `String.data`) with
hand-rolled structural recursions, so every definition evaluates by `decide`
or `rfl`.
-/

namespace Journal

/-! ## Basic string machinery (models of Rust `str` operations used) -/

/-- Boolean test that `p` is an initial segment of `s` (lists of characters). -/
def startsWith : List Char → List Char → Bool
  | [], _ => true
  | _ :: _, [] => false
  | p :: ps, c :: cs => p == c && startsWith ps cs

/-- First occurrence split: models Rust pattern search for a literal separator.
`splitOnce sep s = some (a, b)` when `s = a ++ sep ++ b` with the occurrence of
`sep` leftmost; `none` when `sep` does not occur in `s`. -/
def splitOnce (sep : List Char) : List Char → Option (List Char × List Char)
  | [] => if sep == [] then some ([], []) else none
  | c :: cs =>
    if startsWith sep (c :: cs) then some ([], (c :: cs).drop sep.length)
    else match splitOnce sep cs with
      | some (a, b) => some (c :: a, b)
      | none => none

/-- Models Rust `contents.splitn(3, "---")`: split on the first two
non-overlapping leftmost occurrences of the separator, keeping the remainder
(including any further occurrences) in the third segment. -/
def splitn3 (sep s : List Char) : List (List Char) :=
  match splitOnce sep s with
  | none => [s]
  | some (a, rest) =>
    match splitOnce sep rest with
    | none => [a, rest]
    | some (b, c) => [a, b, c]

/-- Split a character list on a single character (used for YAML lines). -/
def splitChar (sep : Char) : List Char → List (List Char)
  | [] => [[]]
  | c :: cs =>
    if c == sep then [] :: splitChar sep cs
    else match splitChar sep cs with
      | [] => [[c]]
      | l :: ls => (c :: l) :: ls

/-- Whitespace test for trimming (space, tab, CR). -/
def isWs (c : Char) : Bool := c == ' ' || c == '\t' || c == '\r'

/-- Trim leading and trailing whitespace. -/
def trim (s : List Char) : List Char :=
  ((s.dropWhile isWs).reverse.dropWhile isWs).reverse

/-- Position of the last occurrence of `c` in `s`, if any. -/
def lastIdxOf (c : Char) : List Char → Option Nat
  | [] => none
  | x :: xs =>
    match lastIdxOf c xs with
    | some i => some (i + 1)
    | none => if x == c then some 0 else none

/-- The file-name portion of a path: everything after the last `/`.
Models Rust `Path::file_name` for the plain relative paths produced by the
inotify event source (no trailing slash, no `..`). -/
def fileName (path : List Char) : List Char :=
  match lastIdxOf '/' path with
  | some i => path.drop (i + 1)
  | none => path

/-- Models Rust `Path::file_stem`: the portion of the file name before the
last `.`; a name that starts with `.` and has no further `.` is its own stem;
an empty file name has no stem. -/
def fileStem (path : List Char) : Option (List Char) :=
  let name := fileName path
  match name with
  | [] => none
  | c :: cs =>
    match lastIdxOf '.' cs with
    | some i => some (c :: cs.take i)
    | none => if c == '.' then some (c :: cs) else some (c :: cs)

/-- Models Rust `Path::extension`: the portion of the file name after the
last `.`, provided the stem before it is non-empty; `none` for names without
a `.` and for dot-files like `.gitignore`. -/
def extension (path : List Char) : Option (List Char) :=
  let name := fileName path
  match name with
  | [] => none
  | _ :: cs =>
    match lastIdxOf '.' cs with
    | some i => some (cs.drop (i + 1))
    | none => none
  -- the leading character is never part of the extension: a lone
  -- leading dot (dot-file) yields no extension, matching Rust.

/-! ## Data model (src/model.rs) -/

/-- Embedding of `DocKind` from src/model.rs (serde lowercase names `doc`, `post`). -/
inductive DocKind where
  | Doc
  | Post
deriving DecidableEq, Repr

/-- Embedding of `DocGenre` from src/model.rs (serde lowercase names). -/
inductive DocGenre where
  | Tutorial
  | Howto
  | Background
  | Reference
deriving DecidableEq, Repr

/-- serde default for `kind` (src/model.rs `default_kind`). -/
def default_kind : DocKind := DocKind.Doc

/-- serde default for `genre` (src/model.rs `default_genre`). -/
def default_genre : DocGenre := DocGenre.Tutorial

/-- Embedding of `Front` from src/model.rs: the front-matter schema. The YAML key for
`outline` is `abstract` (serde rename). -/
structure Front where
  title : List Char
  outline : List Char
  author : List Char
  tags : List (List Char)
  image : List Char
  kind : DocKind
  genre : DocGenre
deriving DecidableEq, Repr

/-- A UUID, modelled as its 32 lowercase hexadecimal digits. -/
structure Uuid where
  hex : List Char
deriving DecidableEq, Repr

/-- Timestamps are opaque to the pipeline; `updated_at` is whatever the clock
returns at parse completion. -/
abbrev Timestamp := Nat

/-- Embedding of `Doc` from src/model.rs. -/
structure Doc where
  front : Front
  id : Uuid
  updated_at : Timestamp
  content : List Char
deriving DecidableEq

/-! ## UUID parsing (models `uuid::Uuid::parse_str`) -/

/-- Hexadecimal digit test. -/
def isHexDigit (c : Char) : Bool :=
  ('0' ≤ c && c ≤ '9') || ('a' ≤ c && c ≤ 'f') || ('A' ≤ c && c ≤ 'F')

/-- Lowercase a hex digit. -/
def hexLower (c : Char) : Char :=
  if 'A' ≤ c && c ≤ 'F' then Char.ofNat (c.toNat + 32) else c

/-- Models `uuid::Uuid::parse_str` on its two common input forms: the
hyphenated 8-4-4-4-12 form and the simple 32-hex-digit form. Returns the
normalized (lowercase, hyphen-free) digits. -/
def uuidParse (s : List Char) : Option Uuid :=
  if s.length == 36 then
    let groups := splitChar '-' s
    match groups with
    | [g1, g2, g3, g4, g5] =>
      if g1.length == 8 && g2.length == 4 && g3.length == 4 &&
         g4.length == 4 && g5.length == 12 &&
         (g1 ++ g2 ++ g3 ++ g4 ++ g5).all isHexDigit then
        some ⟨(g1 ++ g2 ++ g3 ++ g4 ++ g5).map hexLower⟩
      else none
    | _ => none
  else if s.length == 32 && s.all isHexDigit then
    some ⟨s.map hexLower⟩
  else none

/-! ## YAML front-matter deserialization

Models `serde_yaml::from_str::<Front>` on the YAML subset used by journal
files: a block mapping with scalar values, a block sequence for `tags`,
serde-ignored unknown keys, and the serde defaults for `kind` and `genre`. -/

/-- A parsed YAML value: a scalar or a sequence of scalars. -/
inductive YamlVal where
  | scalar (s : List Char)
  | seq (items : List (List Char))
deriving DecidableEq, Repr

/-- Interpret one line of the front-matter block. -/
inductive YamlLine where
  | blank
  | item (v : List Char)
  | entry (key : List Char) (v : List Char)
deriving DecidableEq, Repr

/-- Classify a single line: blank, a `- item` sequence element, or a
`key: value` mapping entry (value possibly empty). Lines fitting none of
these shapes fail the whole parse. -/
def parseLine (l : List Char) : Option YamlLine :=
  let t := trim l
  match t with
  | [] => some YamlLine.blank
  | c :: cs =>
    if c == '-' && (cs == [] || startsWith [' '] cs) then
      some (YamlLine.item (trim cs))
    else
      match splitOnce [':'] t with
      | some (k, v) => some (YamlLine.entry (trim k) (trim v))
      | none => none

/-- Fold one classified line into the accumulated mapping (most recent entry
first). A `key:` line with an empty value opens a sequence; subsequent
`- item` lines extend the most recently opened sequence. A stray `- item`
with no open sequence is an error. -/
def addLine (acc : List (List Char × YamlVal)) :
    YamlLine → Option (List (List Char × YamlVal))
  | YamlLine.blank => some acc
  | YamlLine.entry k [] => some ((k, YamlVal.seq []) :: acc)
  | YamlLine.entry k v => some ((k, YamlVal.scalar v) :: acc)
  | YamlLine.item v =>
    match acc with
    | (k, YamlVal.seq items) :: rest => some ((k, YamlVal.seq (items ++ [v])) :: rest)
    | _ => none

/-- Fold the classified lines into a mapping. -/
def buildMap (ls : List YamlLine) : Option (List (List Char × YamlVal)) :=
  ls.foldlM addLine []

/-- Look up a key in the parsed mapping (first occurrence). -/
def lookupKey (k : List Char) : List (List Char × YamlVal) → Option YamlVal
  | [] => none
  | (k2, v) :: rest => if k2 == k then some v else lookupKey k rest

/-- serde deserialization of the `kind` field (lowercase enum names). -/
def parseKind (s : List Char) : Option DocKind :=
  if s == "doc".data then some DocKind.Doc
  else if s == "post".data then some DocKind.Post
  else none

/-- serde deserialization of the `genre` field (lowercase enum names). -/
def parseGenre (s : List Char) : Option DocGenre :=
  if s == "tutorial".data then some DocGenre.Tutorial
  else if s == "howto".data then some DocGenre.Howto
  else if s == "background".data then some DocGenre.Background
  else if s == "reference".data then some DocGenre.Reference
  else none

/-- Require a scalar value under the key. -/
def reqScalar (m : List (List Char × YamlVal)) (k : List Char) :
    Option (List Char) :=
  match lookupKey k m with
  | some (YamlVal.scalar s) => some s
  | _ => none

/-- Models `serde_yaml::from_str::<Front>` (src/model.rs lines 32-44):
`title`, `abstract` (→ `outline`), `author`, `tags`, `image` required;
`kind` defaults to `Doc` and `genre` to `Tutorial` when absent; failure on
malformed YAML, missing required fields, or bad enum values. -/
def yamlFront (s : List Char) : Option Front := do
  let lines ← (splitChar '\n' s).mapM parseLine
  let m ← buildMap lines
  let title ← reqScalar m "title".data
  let outline ← reqScalar m "abstract".data
  let author ← reqScalar m "author".data
  let tags ← match lookupKey "tags".data m with
    | some (YamlVal.seq items) => some items
    | _ => none
  let image ← reqScalar m "image".data
  let kind ← match lookupKey "kind".data m with
    | some (YamlVal.scalar s) => parseKind s
    | some (YamlVal.seq _) => none
    | none => some default_kind
  let genre ← match lookupKey "genre".data m with
    | some (YamlVal.scalar s) => parseGenre s
    | some (YamlVal.seq _) => none
    | none => some default_genre
  pure ⟨title, outline, author, tags, image, kind, genre⟩

/-! ## Event classifier (src/watcher.rs, `event_to_path`) -/

/-- An inotify event as the classifier sees it (src/watcher.rs lines 76-121):
an optional file name and the mask bits the code inspects. The spec's
RawEvent change kinds map onto the mask bits: Created = `create`,
Deleted = `delete`, Modified = `modify`, Other = none of them;
`isDir` is the `ISDIR` flag. -/
structure REvent where
  name : Option (List Char)
  create : Bool
  delete : Bool
  modify : Bool
  isDir : Bool
deriving DecidableEq

/-- Embedding of `event_to_path` (src/watcher.rs lines 76-121): keep only
named events whose path has extension `md`; `CREATE` and `MODIFY` on
non-directories yield the path; `DELETE` and directory-flagged events yield
nothing; any other mask yields nothing. -/
def event_to_path (e : REvent) : Option (List Char) :=
  match e.name with
  | none => none
  | some name =>
    let path := name
    match extension path with
    | some ext =>
      if ext == "md".data then
        if e.create then
          if e.isDir then none else some path
        else if e.delete then
          if e.isDir then none else none
        else if e.modify then
          if e.isDir then none else some path
        else none
      else none
    | none => none

/-! ## Document parser (src/watcher.rs, `path_to_doc`) -/

/-- The watcher error type (src/watcher.rs lines 12-40). The spec's
taxonomy maps onto it as: IOError = `FileIOError`, MalformedContent =
`FileError`, IdentityError = `UuidError`, SchemaError = `YamlError`. -/
inductive WError where
  | INotifyError
  | FileIOError (path : List Char)
  | FileError (details : List Char)
  | UuidError
  | YamlError
deriving DecidableEq

/-- The `Watcher` struct (src/watcher.rs lines 42-53): constructed from the
directory path to watch (the event buffer is irrelevant to the embedding). -/
structure Watcher where
  path : List Char
deriving DecidableEq

/-- A filesystem snapshot: maps an absolute-or-relative path to its content,
`none` meaning the file cannot be opened or read. -/
abbrev FileSys := List Char → Option (List Char)

/-- Path join as performed by `PathBuf::push` of a relative component
(src/watcher.rs lines 125-126). -/
def pathJoin (base rel : List Char) : List Char :=
  base ++ '/' :: rel

/-- The location `path_to_doc` reads a candidate from (src/watcher.rs lines
124-126): the candidate path pushed onto the constant base directory
`assets` — the watcher root is not consulted (source comment:
`FIXME: Hardcoded base dir`). -/
def readLocation (candidate : List Char) : List Char :=
  pathJoin "assets".data candidate

/-- Decimal rendering of a natural number (for the `FileError` detail
string produced with `format!("content length: {}", contents.len())`). -/
def natDigits : Nat → List Char
  | n =>
    let d := Char.ofNat (48 + n % 10)
    if h : n < 10 then [d]
    else natDigits (n / 10) ++ [d]
decreasing_by
  exact Nat.div_lt_self (Nat.lt_of_lt_of_le (by decide) (Nat.le_of_not_lt h)) (by decide)

/-- Embedding of `path_to_doc` (src/watcher.rs lines 123-179). `now` is the
wall-clock value `Utc::now()` returns at parse completion. Note the
evaluation order of the source: read, empty-content check, 3-way split,
file-stem extraction, UUID parse, and only then front-matter
deserialization. -/
def path_to_doc (fs : FileSys) (now : Timestamp) (path : List Char) :
    Except WError (Option Doc) :=
  match fs (readLocation path) with
  | none => Except.error (WError.FileIOError (readLocation path))
  | some contents =>
    if contents.length == 0 then Except.ok none
    else
      -- `splitn(3, _)` yields at most 3 segments (`splitn3_length_le`), so
      -- the source's `v.len() < 3` test is exactly the failure of the
      -- 3-segment pattern, and `v[1]`, `v[2]` are the two named segments
      match splitn3 "---".data contents with
      | [_, seg1, seg2] =>
        match fileStem path with
        | none => Except.error (WError.FileError "Invalid Stem".data)
        | some base =>
          match uuidParse base with
          | none => Except.error WError.UuidError
          | some id =>
            match yamlFront seg1 with
            | none => Except.error WError.YamlError
            | some front => Except.ok (some ⟨front, id, now, seg2⟩)
      | _ =>
        Except.error (WError.FileError
          ("content length: ".data ++ natDigits contents.length))

/-! ## Ingestion payload and persistence sync worker (src/main.rs) -/

/-- Embedding of `Payload` from src/main.rs lines 37-41. -/
inductive Payload where
  | Doc (d : Doc)
  | Warning (s : List Char)
  | Error (s : List Char)

/-- One log line emitted by the worker loop (src/main.rs lines 126-152):
`info!` on upsert success, `error!` on upsert failure, `warn!` / `error!`
for diagnostic payloads. -/
inductive LogItem where
  | insertedId (id : List Char)
  | insertError (e : List Char)
  | warned (s : List Char)
  | errored (s : List Char)
deriving DecidableEq

/-- The store upsert call (`doc2db`, src/main.rs lines 308-335) abstracted
as a function from the document to either the resulting identity string or
a store error. -/
def Upsert := Doc → Except (List Char) (List Char)

/-- Dispatch of a single dequeued payload (the `match payload` arm of the
worker loop, src/main.rs lines 129-150): a `Doc` payload is sent to the
store and its outcome logged; `Warning` and `Error` payloads are only
logged. The second component records the store interaction this payload
caused, if any. -/
def handlePayload (upsert : Upsert) : Payload → LogItem × Option Doc
  | Payload.Doc d =>
    match upsert d with
    | Except.ok id => (LogItem.insertedId id, some d)
    | Except.error e => (LogItem.insertError e, some d)
  | Payload.Warning w => (LogItem.warned w, none)
  | Payload.Error e => (LogItem.errored e, none)

/-- The worker loop (src/main.rs lines 126-152): `while let Some(payload) =
rx1.recv().await`, dispatching each payload in turn. The input list is the
sequence of payloads the channel delivers; the result is the log produced
and the sequence of documents sent to the store. -/
def workerRun (upsert : Upsert) : List Payload → List LogItem × List Doc
  | [] => ([], [])
  | p :: rest =>
    let o := handlePayload upsert p
    let r := workerRun upsert rest
    (o.1 :: r.1, o.2.toList ++ r.2)

/-- The document carried by a `Doc` payload, if any. -/
def docOf : Payload → Option Doc
  | Payload.Doc d => some d
  | _ => none

/-! ## Ingestion channel (src/main.rs line 115: `mpsc::channel(1024)`)

Modelled from the spec: the channel implementation itself is the `tokio`
mpsc primitive, not code of this repository; §4.4 of the spec specifies it
as a bounded FIFO queue whose enqueue suspends the producer while the
number of undelivered payloads equals the capacity, with no drop policy.
Only the capacity, 1024, comes from src/main.rs. -/

/-- The channel capacity chosen in src/main.rs line 115. -/
def channelCapacity : Nat := 1024

/-- Channel history: everything the producer has enqueued, in order, and
everything the consumer has dequeued, in order. The undelivered backlog is
`sent.drop received.length`. -/
structure ChanState (α : Type) where
  sent : List α
  received : List α
deriving DecidableEq

/-- An interaction with the channel. -/
inductive ChanOp (α : Type) where
  | send (a : α)
  | recv
deriving DecidableEq

/-- One channel interaction. `none` means the operation cannot complete now:
a `send` on a full channel suspends the producer, a `recv` on an empty
channel suspends the consumer. A completed `recv` delivers the oldest
undelivered element. -/
def chanStep (st : ChanState α) : ChanOp α → Option (ChanState α)
  | ChanOp.send a =>
    if st.sent.length < st.received.length + channelCapacity then
      some { st with sent := st.sent ++ [a] }
    else none
  | ChanOp.recv =>
    match st.sent.drop st.received.length with
    | [] => none
    | x :: _ => some { st with received := st.received ++ [x] }

/-- Run a sequence of channel interactions; `none` if any of them would
have suspended. -/
def chanRun : List (ChanOp α) → ChanState α → Option (ChanState α)
  | [], st => some st
  | op :: ops, st =>
    match chanStep st op with
    | some st2 => chanRun ops st2
    | none => none

/-- The list `xs` is an initial segment of `ys`. -/
def initSeg (xs ys : List α) : Prop := ∃ t, xs ++ t = ys

/-! ## Change notification relay (src/main.rs, `make_stream`) -/

/-- An asynchronous message arriving on the relay's dedicated store
connection (`tokio_postgres::AsyncMessage`): a notification with channel
name and payload, or any other message (notices, parameter status, ...). -/
inductive AsyncMessage where
  | Notification (channel : List Char) (payload : List Char)
  | NoticeMsg (text : List Char)
  | OtherMsg
deriving DecidableEq

/-- A server-sent event as assembled in `make_stream`: an event name and a
data string. -/
structure SseEvent where
  event : List Char
  data : List Char
deriving DecidableEq

/-- The per-message arm of the `filter_map` in `make_stream` (src/main.rs
lines 289-301): a `Notification` becomes an SSE event carrying the channel
name and the payload verbatim; every other message becomes nothing. -/
def msgToEvent : AsyncMessage → Option SseEvent
  | AsyncMessage.Notification ch pl => some ⟨ch, pl⟩
  | AsyncMessage.NoticeMsg _ => none
  | AsyncMessage.OtherMsg => none

/-- Embedding of `make_stream` (src/main.rs lines 283-302): the stream of
messages filtered and mapped to SSE events. -/
def make_stream (msgs : List AsyncMessage) : List SseEvent :=
  msgs.filterMap msgToEvent

/-- Modelled from the spec: delivery of upstream messages to one client
stream. A client stream is created when the client subscribes and receives
the messages that arrive from then on — "no history/replay for late
joiners" (spec §4.6). Messages are stamped with arrival times; the client
connected at `c` sees exactly the messages with stamp `≥ c`, in order. -/
def deliveredTo (c : Nat) (msgs : List (Nat × AsyncMessage)) :
    List AsyncMessage :=
  (msgs.filter (fun m => c ≤ m.1)).map (fun m => m.2)

/-- The event stream a client connected at time `c` observes: `make_stream`
applied to the messages delivered to its per-connection queue. -/
def clientEvents (c : Nat) (msgs : List (Nat × AsyncMessage)) :
    List SseEvent :=
  make_stream (deliveredTo c msgs)

/-! ## Concrete filesystems used to exercise the parser -/

/-- A filesystem holding one file `assets/notes.md` whose front-matter
segment is not valid front matter and whose name stem is not a UUID. -/
def fsBadStemBadYaml : FileSys := fun p =>
  if p == "assets/notes.md".data then some "x---nope---body".data else none

/-- A filesystem holding one file with a UUID name stem and a front-matter
segment that is not valid front matter. -/
def fsGoodStemBadYaml : FileSys := fun p =>
  if p == "assets/5c2ed912-0c29-4bd4-87bd-9a2c4ca4e439.md".data then
    some "x---nope---body".data
  else none

/-- The well-formed journal file of the round-trip test: UUID name stem,
preamble, front matter, and a body that itself contains `---`. -/
def wellFormedContent : List Char :=
  ("pre---\ntitle: T\nabstract: A\nauthor: Au\ntags:\n- x\n- y\n" ++
   "image: img\nkind: doc\ngenre: tutorial\n---hello --- world").data

/-- A filesystem holding the well-formed journal file. -/
def fsWellFormed : FileSys := fun p =>
  if p == "assets/5c2ed912-0c29-4bd4-87bd-9a2c4ca4e439.md".data then
    some wellFormedContent
  else none

/-- A filesystem holding one empty file. -/
def fsEmptyFile : FileSys := fun p =>
  if p == "assets/a.md".data then some [] else none

/-- A filesystem holding one file with no `---` marker at all. -/
def fsNoMarker : FileSys := fun p =>
  if p == "assets/a.md".data then some "just a body".data else none

/-- The upsert used to exercise the worker loop: fails on every document. -/
def failingUpsert : Upsert := fun _ => Except.error "boom".data

/-- A sample document for worker-loop tests. -/
def sampleDoc : Doc :=
  ⟨⟨"T".data, "A".data, "Au".data, [], "i".data, DocKind.Doc, DocGenre.Tutorial⟩,
   ⟨"5c2ed9120c294bd487bd9a2c4ca4e439".data⟩, 0, "body".data⟩

/-! # Theorems -/

/-- The split `splitn3` produces at most 3 segments, matching Rust `splitn(3, _)`;
this justifies the 3-segment pattern in `path_to_doc` standing in for the
source's `v.len() < 3` test. -/
theorem splitn3_length_le (sep s : List Char) : (splitn3 sep s).length ≤ 3 := by
  unfold splitn3
  cases h1 : splitOnce sep s with
  | none => simp
  | some p =>
    obtain ⟨a, rest⟩ := p
    cases h2 : splitOnce sep rest with
    | none => simp [h2]
    | some q =>
      obtain ⟨b, c⟩ := q
      simp [h2]

/-- Single-step preservation of the channel history invariant: the
dequeued sequence is an initial segment of the enqueued sequence and the
backlog never exceeds the capacity. -/
theorem chanStep_inv {α : Type} (st st2 : ChanState α) (op : ChanOp α)
    (h1 : initSeg st.received st.sent)
    (h2 : st.sent.length ≤ st.received.length + channelCapacity)
    (hstep : chanStep st op = some st2) :
    initSeg st2.received st2.sent ∧
    st2.sent.length ≤ st2.received.length + channelCapacity := by
  obtain ⟨t, ht⟩ := h1
  cases op with
  | send a =>
    simp only [chanStep] at hstep
    by_cases hc : st.sent.length < st.received.length + channelCapacity
    · rw [if_pos hc] at hstep
      cases hstep
      refine ⟨⟨t ++ [a], ?_⟩, ?_⟩
      · rw [← List.append_assoc, ht]
      · simp only [List.length_append, List.length_cons, List.length_nil]
        omega
    · rw [if_neg hc] at hstep
      cases hstep
  | recv =>
    simp only [chanStep] at hstep
    have hdrop : st.sent.drop st.received.length = t := by
      rw [← ht, List.drop_left]
    rw [hdrop] at hstep
    cases t with
    | nil => cases hstep
    | cons x rest =>
      simp only at hstep
      cases hstep
      constructor
      · exact ⟨rest, by rw [List.append_assoc]; simpa using ht⟩
      · have hlen : st.sent.length = st.received.length + (rest.length + 1) := by
          rw [← ht]
          simp [List.length_append]
        simp only [List.length_append, List.length_cons, List.length_nil]
        omega

/-- Invariant preservation along any completed run of channel operations. -/
theorem chanRun_inv {α : Type} (ops : List (ChanOp α)) (st st2 : ChanState α)
    (h1 : initSeg st.received st.sent)
    (h2 : st.sent.length ≤ st.received.length + channelCapacity)
    (hrun : chanRun ops st = some st2) :
    initSeg st2.received st2.sent ∧
    st2.sent.length ≤ st2.received.length + channelCapacity := by
  induction ops generalizing st with
  | nil =>
    simp only [chanRun] at hrun
    cases hrun
    exact ⟨h1, h2⟩
  | cons op ops ih =>
    simp only [chanRun] at hrun
    cases hmid : chanStep st op with
    | none => rw [hmid] at hrun; cases hrun
    | some stm =>
      rw [hmid] at hrun
      obtain ⟨g1, g2⟩ := chanStep_inv st stm op h1 h2 hmid
      exact ih stm g1 g2 hrun

/-- C7: the persistence sync worker never terminates its loop on a
per-item failure. For every store behaviour and payload sequence the loop
logs one outcome per payload and sends to the store exactly the documents
of the `Doc` payloads (so a `Warning` or `Error` payload causes no store
interaction); and when the upsert of the document at the head fails, the
loop still processes the whole remainder unchanged. -/
theorem c7_worker_continues_after_failure (upsert : Upsert)
    (ps : List Payload) :
    (workerRun upsert ps).1.length = ps.length ∧
    (workerRun upsert ps).2 = ps.filterMap docOf ∧
    ∀ (d : Doc) (e : List Char) (rest : List Payload),
      upsert d = Except.error e →
      workerRun upsert (Payload.Doc d :: rest) =
        (LogItem.insertError e :: (workerRun upsert rest).1,
         d :: (workerRun upsert rest).2) := by
  refine ⟨?_, ?_, ?_⟩
  · induction ps with
    | nil => rfl
    | cons p rest ih =>
      unfold workerRun
      simp only [List.length_cons, ih]
  · induction ps with
    | nil => rfl
    | cons p rest ih =>
      unfold workerRun
      rw [List.filterMap_cons]
      cases p with
      | Doc d =>
        simp only [handlePayload, docOf]
        cases upsert d with
        | ok id => simpa using ih
        | error e => simpa using ih
      | Warning w => simpa [handlePayload, docOf] using ih
      | Error e => simpa [handlePayload, docOf] using ih
  · intro d e rest hfail
    simp only [workerRun, handlePayload, hfail, Option.toList,
      List.singleton_append]

/-- C7 witness: with a store whose upsert always fails, a concrete queue
of a document, a warning, and a second document is fully processed — the
failure on the first document does not stop the second from being
dequeued and dispatched, and the warning reaches the store not at all. -/
theorem c7_worker_continues_after_failure_witness :
    (workerRun failingUpsert
      [Payload.Doc sampleDoc, Payload.Warning "w".data,
       Payload.Doc sampleDoc]).1.length = 3 ∧
    (workerRun failingUpsert
      [Payload.Doc sampleDoc, Payload.Warning "w".data,
       Payload.Doc sampleDoc]).2 = [sampleDoc, sampleDoc] ∧
    workerRun failingUpsert
        (Payload.Doc sampleDoc ::
          [Payload.Warning "w".data, Payload.Doc sampleDoc]) =
      (LogItem.insertError "boom".data ::
        (workerRun failingUpsert
          [Payload.Warning "w".data, Payload.Doc sampleDoc]).1,
       sampleDoc ::
        (workerRun failingUpsert
          [Payload.Warning "w".data, Payload.Doc sampleDoc]).2) := by
  have h := c7_worker_continues_after_failure failingUpsert
    [Payload.Doc sampleDoc, Payload.Warning "w".data, Payload.Doc sampleDoc]
  refine ⟨h.1, ?_, ?_⟩
  · rw [h.2.1]
    decide
  · exact h.2.2 sampleDoc "boom".data
      [Payload.Warning "w".data, Payload.Doc sampleDoc] rfl

/-- C8: the ingestion channel is a bounded FIFO queue of fixed capacity
1024. An enqueue completes exactly when fewer than 1024 payloads are
undelivered — on a full channel the producer suspends (`chanStep` returns
`none`); after the consumer dequeues one item a previously suspended
enqueue is enabled again; and along every completed sequence of channel
operations from the empty channel the dequeued payloads form an initial
segment of the enqueued payloads (nothing dropped, order exactly
preserved) with the backlog never exceeding the capacity. -/
theorem c8_bounded_fifo_channel {α : Type} :
    channelCapacity = 1024 ∧
    (∀ (st : ChanState α) (a : α),
      chanStep st (ChanOp.send a) = none ↔
        st.received.length + channelCapacity ≤ st.sent.length) ∧
    (∀ (st st2 : ChanState α) (a : α),
      st.sent.length ≤ st.received.length + channelCapacity →
      chanStep st (ChanOp.send a) = none →
      chanStep st ChanOp.recv = some st2 →
      ∃ st3, chanStep st2 (ChanOp.send a) = some st3) ∧
    (∀ (ops : List (ChanOp α)) (st : ChanState α),
      chanRun ops ⟨[], []⟩ = some st →
      initSeg st.received st.sent ∧
      st.sent.length ≤ st.received.length + channelCapacity) := by
  refine ⟨rfl, ?_, ?_, ?_⟩
  · intro st a
    simp only [chanStep]
    by_cases hc : st.sent.length < st.received.length + channelCapacity
    · rw [if_pos hc]
      constructor
      · intro h; cases h
      · omega
    · rw [if_neg hc]
      constructor
      · intro _; omega
      · intro _; rfl
  · intro st st2 a hbound hfull hrecv
    have hsend : st.received.length + channelCapacity ≤ st.sent.length := by
      simp only [chanStep] at hfull
      by_cases hc : st.sent.length < st.received.length + channelCapacity
      · rw [if_pos hc] at hfull; cases hfull
      · omega
    simp only [chanStep] at hrecv
    cases hdrop : st.sent.drop st.received.length with
    | nil => rw [hdrop] at hrecv; cases hrecv
    | cons x rest =>
      rw [hdrop] at hrecv
      simp only at hrecv
      cases hrecv
      refine ⟨⟨st.sent ++ [a], st.received ++ [x]⟩, ?_⟩
      simp only [chanStep]
      rw [if_pos (by
        simp only [List.length_append, List.length_cons, List.length_nil]
        omega)]
  · intro ops st hrun
    exact chanRun_inv ops ⟨[], []⟩ st ⟨[], rfl⟩ (by simp) hrun

set_option maxRecDepth 8192 in
/-- C8 witness: with 1024 undelivered payloads a further enqueue suspends;
after one dequeue it is enabled again; and a concrete completed run from
the empty channel leaves the dequeued sequence an initial segment of the
enqueued sequence within the capacity bound. -/
theorem c8_bounded_fifo_channel_witness :
    chanStep (⟨List.replicate 1024 0, []⟩ : ChanState Nat)
      (ChanOp.send 7) = none ∧
    (∃ st3, chanStep (⟨List.replicate 1024 0, [0]⟩ : ChanState Nat)
      (ChanOp.send 7) = some st3) ∧
    (initSeg ([1] : List Nat) [1, 2] ∧
      ([1, 2] : List Nat).length ≤ ([1] : List Nat).length + channelCapacity) := by
  have h := c8_bounded_fifo_channel (α := Nat)
  refine ⟨?_, ?_, ?_⟩
  · exact (h.2.1 ⟨List.replicate 1024 0, []⟩ 7).mpr (by decide)
  · exact h.2.2.1 ⟨List.replicate 1024 0, []⟩ ⟨List.replicate 1024 0, [0]⟩ 7
      (by decide) ((h.2.1 ⟨List.replicate 1024 0, []⟩ 7).mpr (by decide))
      (by decide)
  · have hfinal : chanRun [ChanOp.send 1, ChanOp.send 2, ChanOp.recv]
        (⟨[], []⟩ : ChanState Nat) = some ⟨[1, 2], [1]⟩ := by decide
    exact h.2.2.2 [ChanOp.send 1, ChanOp.send 2, ChanOp.recv] ⟨[1, 2], [1]⟩ hfinal

/-- C9: a notification received on the subscribed channel while a client
stream is connected (connection time `c1` at or before the arrival stamp
`t`) contributes exactly one event to that client's stream, in arrival
order, whose event name is the notification's channel and whose data is
its payload, verbatim; a client that connects only after the arrival
(`t < c2`) gets no event for it — no history or replay. -/
theorem c9_forward_verbatim_no_replay (c1 c2 t : Nat) (ch pl : List Char)
    (pre post : List (Nat × AsyncMessage))
    (h1 : c1 ≤ t) (h2 : t < c2) :
    clientEvents c1 (pre ++ (t, AsyncMessage.Notification ch pl) :: post) =
      clientEvents c1 pre ++ SseEvent.mk ch pl :: clientEvents c1 post ∧
    clientEvents c2 (pre ++ (t, AsyncMessage.Notification ch pl) :: post) =
      clientEvents c2 pre ++ clientEvents c2 post := by
  constructor
  · unfold clientEvents deliveredTo make_stream
    rw [List.filter_append, List.filter_cons]
    simp only [decide_eq_true_eq]
    rw [if_pos h1]
    simp [List.filterMap_append, msgToEvent]
  · unfold clientEvents deliveredTo make_stream
    rw [List.filter_append, List.filter_cons]
    simp only [decide_eq_true_eq]
    rw [if_neg (by omega)]
    simp [List.filterMap_append]

/-- C9 witness: a notification arriving at time 5 reaches, verbatim and
exactly once, the client connected at time 0, and does not reach the
client connected at time 9. -/
theorem c9_forward_verbatim_no_replay_witness :
    clientEvents 0 ([] ++ (5, AsyncMessage.Notification "documents".data
        "payload".data) :: []) =
      clientEvents 0 [] ++ SseEvent.mk "documents".data "payload".data ::
        clientEvents 0 [] ∧
    clientEvents 9 ([] ++ (5, AsyncMessage.Notification "documents".data
        "payload".data) :: []) =
      clientEvents 9 [] ++ clientEvents 9 [] :=
  c9_forward_verbatim_no_replay 0 9 5 "documents".data "payload".data [] []
    (by decide) (by decide)

/-- C1: the claim says the parser reads each candidate at the candidate's
relative path resolved against the watched root the `Watcher` was
constructed with, so distinct roots would read distinct locations. The code
instead resolves against the constant base directory `assets`
(src/watcher.rs line 125, marked `FIXME: Hardcoded base dir`): a watcher
constructed with root `content` still reads `assets/a.md`, not
`content/a.md`. -/
theorem c1_hardcoded_base_dir :
    readLocation "a.md".data = "assets/a.md".data ∧
    readLocation "a.md".data ≠ pathJoin (Watcher.mk "content".data).path "a.md".data := by
  constructor
  · rfl
  · intro h
    exact absurd (congrArg (fun l => l.take 1) h) (by decide)

/-- C4: a candidate file that reads successfully with content of length
zero makes the parser return `Ok(None)` — the explicit no-document signal —
and not a parse failure. -/
theorem c4_empty_content_yields_none (fs : FileSys) (now : Timestamp)
    (path contents : List Char)
    (hread : fs (readLocation path) = some contents)
    (hlen : contents.length = 0) :
    path_to_doc fs now path = Except.ok none := by
  unfold path_to_doc
  rw [hread]
  simp [hlen]

/-- C5: a candidate file with non-empty content containing fewer than two
`---` delimiters (so the 3-way split yields fewer than 3 segments) makes
the parser return the malformed-content failure (`FileError` carrying the
content length), not a silent skip. -/
theorem c5_malformed_content_error (fs : FileSys) (now : Timestamp)
    (path contents : List Char)
    (hread : fs (readLocation path) = some contents)
    (hne : contents ≠ [])
    (hfew : splitOnce "---".data contents = none ∨
      ∃ a rest, splitOnce "---".data contents = some (a, rest) ∧
        splitOnce "---".data rest = none) :
    path_to_doc fs now path =
      Except.error (WError.FileError
        ("content length: ".data ++ natDigits contents.length)) := by
  have h0 : (contents.length == 0) = false := by
    simp only [beq_eq_false_iff_ne, ne_eq, List.length_eq_zero]
    exact hne
  unfold path_to_doc
  rw [hread]
  simp only [h0, Bool.false_eq_true, if_false]
  unfold splitn3
  rcases hfew with h | ⟨a, rest, h1, h2⟩
  · rw [h]
  · rw [h1]
    simp only
    rw [h2]

/-- C4 witness: the parser applied to a concrete empty file returns
`Ok(None)`. -/
theorem c4_empty_content_yields_none_witness :
    path_to_doc fsEmptyFile 0 "a.md".data = Except.ok none :=
  c4_empty_content_yields_none fsEmptyFile 0 "a.md".data []
    (by decide) (by decide)

/-- C5 witness: the parser applied to a concrete file with no `---` marker
returns the malformed-content failure. -/
theorem c5_malformed_content_error_witness :
    path_to_doc fsNoMarker 0 "a.md".data =
      Except.error (WError.FileError
        ("content length: ".data ++ natDigits ("just a body".data).length)) :=
  c5_malformed_content_error fsNoMarker 0 "a.md".data "just a body".data
    (by decide) (by decide) (Or.inl (by decide))

/-- C2 counterexample: the file `notes.md` with content `x---nope---body`
splits into 3 segments and its second segment fails front-matter
deserialization, yet the parser returns the identity failure (`UuidError`),
not the schema failure (`YamlError`): the code parses the name stem as a
UUID before deserializing the front matter (src/watcher.rs lines 153-167),
contrary to the claim's step order. -/
theorem c2_counterexample :
    splitn3 "---".data "x---nope---body".data =
      ["x".data, "nope".data, "body".data] ∧
    yamlFront "nope".data = none ∧
    path_to_doc fsBadStemBadYaml 0 "notes.md".data =
      Except.error WError.UuidError ∧
    path_to_doc fsBadStemBadYaml 0 "notes.md".data ≠
      Except.error WError.YamlError := by
  refine ⟨by decide, by decide, by rfl, ?_⟩
  rw [show path_to_doc fsBadStemBadYaml 0 "notes.md".data =
    Except.error WError.UuidError from rfl]
  simp

/-- C2 (amended): when the candidate's second segment fails front-matter
deserialization AND the file's name stem parses as a UUID, the parser
returns the schema failure (`YamlError`); identity derivation is performed
before front-matter deserialization, so with an invalid stem the parser
reports `UuidError` instead. -/
theorem c2_amended_schema_error (fs : FileSys) (now : Timestamp)
    (path contents s0 s1 s2 base : List Char) (id : Uuid)
    (hread : fs (readLocation path) = some contents)
    (hne : contents ≠ [])
    (hsplit : splitn3 "---".data contents = [s0, s1, s2])
    (hstem : fileStem path = some base)
    (hid : uuidParse base = some id)
    (hyaml : yamlFront s1 = none) :
    path_to_doc fs now path = Except.error WError.YamlError := by
  have h0 : (contents.length == 0) = false := by
    simp only [beq_eq_false_iff_ne, ne_eq, List.length_eq_zero]
    exact hne
  unfold path_to_doc
  rw [hread]
  simp only [h0, Bool.false_eq_true, if_false, hsplit, hstem, hid, hyaml]

/-- C2 witness: a concrete file with a UUID name stem and undeserializable
front matter yields the schema failure. -/
theorem c2_amended_schema_error_witness :
    path_to_doc fsGoodStemBadYaml 0
      "5c2ed912-0c29-4bd4-87bd-9a2c4ca4e439.md".data =
      Except.error WError.YamlError :=
  c2_amended_schema_error fsGoodStemBadYaml 0
    "5c2ed912-0c29-4bd4-87bd-9a2c4ca4e439.md".data
    "x---nope---body".data "x".data "nope".data "body".data
    "5c2ed912-0c29-4bd4-87bd-9a2c4ca4e439".data
    ⟨"5c2ed9120c294bd487bd9a2c4ca4e439".data⟩
    (by decide) (by decide) (by decide) (by decide) (by decide) (by decide)

/-- C3: a candidate file whose name stem parses as a UUID and whose content
3-way-splits into a preamble, a front-matter segment deserializing to
`front`, and a body (kept verbatim, later `---` occurrences included)
parses to a `Document` carrying that front matter, the stem's UUID as `id`,
the parse-time clock value, and the body segment unchanged. -/
theorem c3_round_trip (fs : FileSys) (now : Timestamp)
    (path contents s0 fm body base : List Char) (id : Uuid) (front : Front)
    (hread : fs (readLocation path) = some contents)
    (hne : contents ≠ [])
    (hsplit : splitn3 "---".data contents = [s0, fm, body])
    (hstem : fileStem path = some base)
    (hid : uuidParse base = some id)
    (hyaml : yamlFront fm = some front) :
    path_to_doc fs now path = Except.ok (some ⟨front, id, now, body⟩) := by
  have h0 : (contents.length == 0) = false := by
    simp only [beq_eq_false_iff_ne, ne_eq, List.length_eq_zero]
    exact hne
  unfold path_to_doc
  rw [hread]
  simp only [h0, Bool.false_eq_true, if_false, hsplit, hstem, hid, hyaml]

/-- C3 witness: the round trip on the concrete well-formed file — stem
`5c2ed912-0c29-4bd4-87bd-9a2c4ca4e439`, front matter with title `T`,
abstract `A`, author `Au`, tags `[x, y]`, image `img`, kind `doc`, genre
`tutorial`, and body `hello --- world` whose inner `---` is preserved. -/
theorem c3_round_trip_witness :
    path_to_doc fsWellFormed 0
      "5c2ed912-0c29-4bd4-87bd-9a2c4ca4e439.md".data =
      Except.ok (some
        ⟨⟨"T".data, "A".data, "Au".data, ["x".data, "y".data], "img".data,
          DocKind.Doc, DocGenre.Tutorial⟩,
         ⟨"5c2ed9120c294bd487bd9a2c4ca4e439".data⟩, 0,
         "hello --- world".data⟩) :=
  c3_round_trip fsWellFormed 0
    "5c2ed912-0c29-4bd4-87bd-9a2c4ca4e439.md".data
    wellFormedContent
    "pre".data
    ("\ntitle: T\nabstract: A\nauthor: Au\ntags:\n- x\n- y\n" ++
     "image: img\nkind: doc\ngenre: tutorial\n").data
    "hello --- world".data
    "5c2ed912-0c29-4bd4-87bd-9a2c4ca4e439".data
    ⟨"5c2ed9120c294bd487bd9a2c4ca4e439".data⟩
    ⟨"T".data, "A".data, "Au".data, ["x".data, "y".data], "img".data,
      DocKind.Doc, DocGenre.Tutorial⟩
    (by decide) (by decide) (by decide) (by decide) (by decide) (by decide)

/-- C6: a `Deleted` raw event produces no ingest candidate, for every path
(present or absent) and regardless of the directory flag (src/watcher.rs
lines 92-99). -/
theorem c6_deleted_discarded (name : Option (List Char)) (isdir : Bool) :
    event_to_path ⟨name, false, true, false, isdir⟩ = none := by
  cases name with
  | none => rfl
  | some n =>
    unfold event_to_path
    simp only
    cases hext : extension n with
    | none => rfl
    | some ext =>
      by_cases hmd : (ext == "md".data) = true
      · simp [hmd]
      · simp [hmd]

/-- C10: an asynchronous message on the relay's dedicated connection that
is not a `Notification` produces no client event: `make_stream` drops it
and the surrounding event stream is unchanged (src/main.rs lines 289-301). -/
theorem c10_non_notification_filtered (m : AsyncMessage)
    (h : ∀ ch pl, m ≠ AsyncMessage.Notification ch pl) :
    msgToEvent m = none ∧
    ∀ ms1 ms2 : List AsyncMessage,
      make_stream (ms1 ++ m :: ms2) = make_stream ms1 ++ make_stream ms2 := by
  have hnone : msgToEvent m = none := by
    cases m with
    | Notification ch pl => exact absurd rfl (h ch pl)
    | NoticeMsg t => rfl
    | OtherMsg => rfl
  refine ⟨hnone, fun ms1 ms2 => ?_⟩
  unfold make_stream
  rw [List.filterMap_append, List.filterMap_cons, hnone]

/-- C10 witness: a notice message is filtered out of a concrete stream. -/
theorem c10_non_notification_filtered_witness :
    msgToEvent (AsyncMessage.NoticeMsg "hi".data) = none ∧
    ∀ ms1 ms2 : List AsyncMessage,
      make_stream (ms1 ++ AsyncMessage.NoticeMsg "hi".data :: ms2) =
        make_stream ms1 ++ make_stream ms2 :=
  c10_non_notification_filtered (AsyncMessage.NoticeMsg "hi".data)
    (fun ch pl heq => by cases heq)

end Journal
